import Mathlib

/-!
Shallow embedding of `django_table_sharding/management/commands/migrate.py`
(django-table-sharding, version 1.3).

The reconciliation engine reads catalog metadata (INFORMATION_SCHEMA /
SHOW INDEX / SHOW TABLES) and emits DDL statements against shard tables.
We model the catalog as a pure snapshot (`Db`), each SQL read as a filter
over the snapshot, and each reconciliation routine as a pure function
producing the list of DDL statements it would execute, in order.  Within a
single routine, no catalog read observes the effect of a DDL statement the
same routine issued earlier (the adds/drops touch shard columns that are
never re-read, and index reads precede the index DDL for the same shard),
so a snapshot model is faithful to the sequential source.
-/

namespace TableSharding

/-- Row of INFORMATION_SCHEMA.COLUMNS as used by the code:
COLUMN_NAME, COLUMN_TYPE, IS_NULLABLE (the latter is the literal
string "YES"/"NO" as MySQL returns it). -/
structure Column where
  colName : String
  colType : String
  isNullable : String
deriving Repr, DecidableEq

/-- Row of SHOW INDEX as used by the code: the table it belongs to, the
Non_unique flag (row index 1 in the SHOW INDEX result, kept as the string
the driver returns), the key name and the column name. -/
structure IndexRow where
  tableName : String
  nonUnique : String
  keyName : String
  colName : String
deriving Repr, DecidableEq

/-- Row of INFORMATION_SCHEMA.KEY_COLUMN_USAGE with
REFERENCED_TABLE_NAME IS NOT NULL: a foreign-key constraint on
`tableName`.`colName` named `constraintName`. -/
structure FkRow where
  tableName : String
  colName : String
  constraintName : String
deriving Repr, DecidableEq

/-- Row of INFORMATION_SCHEMA.TABLE_CONSTRAINTS with
CONSTRAINT_TYPE = "UNIQUE". -/
structure UniqueRow where
  tableName : String
  constraintName : String
deriving Repr, DecidableEq

/-- Catalog snapshot the reconciliation run reads. -/
structure Db where
  columns : List (String × Column)
  indexRows : List IndexRow
  fkRows : List FkRow
  uniqueRows : List UniqueRow
  allTables : List String
deriving Repr, DecidableEq

/-- Python value carried as a migration operation's `default` attribute.
`notProvided` stands for django's NOT_PROVIDED sentinel class. -/
inductive PyVal where
  | pyNone
  | pyBool (b : Bool)
  | pyStr (s : String)
  | notProvided
deriving Repr, DecidableEq

/-- Python `str()` of a `PyVal`; `str(NOT_PROVIDED)` prints the class path,
which contains the substring NOT_PROVIDED that the code tests for. -/
def pyToString : PyVal → String
  | PyVal.pyNone => "None"
  | PyVal.pyBool true => "True"
  | PyVal.pyBool false => "False"
  | PyVal.pyStr s => s
  | PyVal.notProvided => "<class 'django.db.models.fields.NOT_PROVIDED'>"

/-- Sublist-of-consecutive-characters test, by scanning every tail. -/
def listContainsSublist : List Char → List Char → Bool
  | [], pat => pat.isEmpty
  | c :: rest, pat => pat.isPrefixOf (c :: rest) || listContainsSublist rest pat

/-- Python's `pat in s` substring test. -/
def strContains (s pat : String) : Bool :=
  listContainsSublist s.data pat.data

/-- SQL LIKE "%suf" / Python `str.endswith`, on the character lists. -/
def strEndsWith (s suf : String) : Bool :=
  suf.data.isSuffixOf s.data

/-- SQL LIKE "pre%" prefix test, on the character lists. -/
def strStartsWith (s pre : String) : Bool :=
  pre.data.isPrefixOf s.data

/-- SELECT ... FROM INFORMATION_SCHEMA.COLUMNS WHERE TABLE_NAME = t AND
COLUMN_NAME = c. -/
def selectColumns (db : Db) (t c : String) : List Column :=
  (db.columns.filter (fun p => p.1 == t && p.2.colName == c)).map Prod.snd

/-- SHOW INDEX FROM t WHERE COLUMN_NAME = c AND KEY_NAME NOT LIKE
"%_uniq". -/
def showIndexNotUniq (db : Db) (t c : String) : List IndexRow :=
  db.indexRows.filter
    (fun r => r.tableName == t && r.colName == c && !(strEndsWith r.keyName "_uniq"))

/-- SELECT CONSTRAINT_NAME FROM INFORMATION_SCHEMA.KEY_COLUMN_USAGE WHERE
COLUMN_NAME = c AND REFERENCED_TABLE_NAME IS NOT NULL AND TABLE_NAME = t. -/
def selectFkConstraints (db : Db) (c t : String) : List String :=
  (db.fkRows.filter (fun r => r.colName == c && r.tableName == t)).map
    (fun r => r.constraintName)

/-- SELECT CONSTRAINT_NAME FROM INFORMATION_SCHEMA.TABLE_CONSTRAINTS WHERE
TABLE_NAME = t AND CONSTRAINT_TYPE = "UNIQUE" AND CONSTRAINT_NAME LIKE
"%_uniq". -/
def selectUniqConstraints (db : Db) (t : String) : List String :=
  ((db.uniqueRows.filter
      (fun r => r.tableName == t && strEndsWith r.constraintName "_uniq")).map
    (fun r => r.constraintName))

/-- SHOW TABLES LIKE "db_table%" (the prefix match; underscores in the
table name are treated as literal characters, which is the intent of
locating tables that share the base name as a prefix). -/
def showTablesLike (db : Db) (pre : String) : List String :=
  db.allTables.filter (fun t => strStartsWith t pre)

/-- One DDL statement the reconciler emits, structured.  Each constructor
corresponds to one of the SQL format strings in `migrate.py`:
`addColumn t c ty d` is ALTER TABLE t ADD COLUMN c ty [DEFAULT "d"];
`dropColumn` / `dropForeignKey` / `dropIndex` are the corresponding
ALTER TABLE drops; `addForeignKey t c rt` is
ALTER TABLE t ADD FOREIGN KEY (c) REFERENCES rt(id);
`addIndex` / `addUniqueIndex` are ALTER TABLE ... ADD INDEX (c) /
ADD UNIQUE (c); `changeColumn t o n ty` is ALTER TABLE t CHANGE o n ty;
`modifyColumn t c ty` is ALTER TABLE t MODIFY c ty;
`setDefault t c v` is ALTER TABLE t ALTER c SET DEFAULT 'v';
`createUniqueIndex n t cs` is CREATE UNIQUE INDEX n ON t(cs). -/
inductive Stmt where
  | addColumn (tableName colName colType : String) (dflt : Option String)
  | dropColumn (tableName colName : String)
  | dropForeignKey (tableName constraintName : String)
  | addForeignKey (tableName colName refTable : String)
  | dropIndex (tableName idxName : String)
  | addIndex (tableName colName : String)
  | addUniqueIndex (tableName colName : String)
  | changeColumn (tableName oldName newName colType : String)
  | modifyColumn (tableName colName colType : String)
  | setDefault (tableName colName dfltVal : String)
  | createUniqueIndex (idxName tableName colNames : String)
deriving Repr, DecidableEq

/-- Outcome of `cursor.execute` + `fetchall` for one statement: either the
fetched rows or a raised database error. -/
inductive SqlOutcome (α : Type) where
  | ok (rows : List α)
  | error (msg : String)
deriving Repr, DecidableEq

/-- `Command.run_sql`: executes the statement; any raised error is caught,
its traceback printed, and `[]` returned, so the caller always receives a
row list and never an exception. -/
def run_sql {α : Type} (outcome : SqlOutcome α) : List α :=
  match outcome with
  | SqlOutcome.ok rows => rows
  | SqlOutcome.error _ => []

/-- `Command.get_sharded_tables`: SHOW TABLES LIKE "db_table%", then keep
every returned name other than the base table itself.  This is the pure
(non-failing) read of the snapshot. -/
def get_sharded_tables (db : Db) (db_table : String) : List String :=
  let rows := showTablesLike db db_table
  if rows.length > 0 then rows.filter (fun r => r != db_table) else []

/-- `Command.get_sharded_tables` with the SHOW TABLES execution outcome
made explicit: the body initialises `tables = []`, runs the query through
`run_sql` (which swallows a statement failure into `[]`), and any
exception in the body is caught by the surrounding try, leaving the
initial `[]` to be returned. -/
def get_sharded_tables_outcome (outcome : SqlOutcome String) (db_table : String) :
    List String :=
  let rows := run_sql outcome
  if rows.length > 0 then rows.filter (fun r => r != db_table) else []

/-- `Command.rename_fields`: looks up COLUMN_TYPE of the *new* field name
on the source table; if found, issues one
ALTER TABLE shard CHANGE old_field new_field column_type per shard; if the
new name is not found on the source (the rows list is empty), no statement
is issued at all. -/
def rename_fields (db : Db) (db_table old_field new_field : String) : List Stmt :=
  let tables := get_sharded_tables db db_table
  match selectColumns db db_table new_field with
  | r :: _ => tables.map (fun table => Stmt.changeColumn table old_field new_field r.colType)
  | [] => []

/-- Per-shard body of `compare_indexes` when the source table has a
non-`_uniq` index on the column: if the shard also has one, drop the index
named after the field, then add a plain index when the source Non_unique
flag is the string "1", else add a unique index.  The shard's own
uniqueness flag is never consulted. -/
def compare_indexes_present (db : Db) (field_name unique_row table : String) : List Stmt :=
  (if (showIndexNotUniq db table field_name).length > 0
    then [Stmt.dropIndex table field_name] else [])
  ++ (if unique_row == "1" then [Stmt.addIndex table field_name]
      else [Stmt.addUniqueIndex table field_name])

/-- `Command.compare_indexes`: reads SHOW INDEX on the source for the
column (excluding `_uniq`-named keys).  If the source has such an index,
runs `compare_indexes_present` on every shard with the source's Non_unique
flag (rows[0][1]); if the source has none, drops the field-named index
from every shard that still has one. -/
def compare_indexes (db : Db) (db_table : String) (tables : List String)
    (field_name : String) : List Stmt :=
  match showIndexNotUniq db db_table field_name with
  | r :: _ =>
      (tables.map (compare_indexes_present db field_name r.nonUnique)).flatten
  | [] =>
      (tables.map (fun table =>
        if (showIndexNotUniq db table field_name).length > 0
          then [Stmt.dropIndex table field_name] else [])).flatten

/-- Source-field resolution at the top of `copy_table_changes`: look the
field up on the source table; if absent, retry with the `_id` suffix and,
when that succeeds, rename the field and flag it as a foreign key.
Returns the rows the add path will use, the (possibly `_id`-resolved)
field name, and the foreign-key flag. -/
def resolve_source_field (db : Db) (db_table field_name : String) :
    List Column × String × Bool :=
  let rows0 := selectColumns db db_table field_name
  if rows0.length == 0 then
    let rows1 := selectColumns db db_table (field_name ++ "_id")
    if rows1.length > 0 then (rows1, field_name ++ "_id", true)
    else (rows1, field_name, false)
  else (rows0, field_name, false)

/-- Per-shard column-existence check of the add path (SELECT * FROM
INFORMATION_SCHEMA.COLUMNS for the shard and the resolved field name):
true when the shard lacks the column. -/
def column_missing (db : Db) (field_name table : String) : Bool :=
  (selectColumns db table field_name).length == 0

/-- DEFAULT clause the add path attaches to ADD COLUMN, by the source's
branch structure: nullable column gets none; `default_value is True` the
literal "1"; `is False` the literal "0"; any other value gets its `str()`
unless the column type mentions datetime or the value's `str()` mentions
NOT_PROVIDED, in which case there is no DEFAULT clause. -/
def add_default_clause (r : Column) (default_value : PyVal) : Option String :=
  if r.isNullable == "YES" then Option.none
  else if default_value == PyVal.pyBool true then Option.some "1"
  else if default_value == PyVal.pyBool false then Option.some "0"
  else if !(strContains r.colType "datetime")
          && !(strContains (pyToString default_value) "NOT_PROVIDED") then
    Option.some (pyToString default_value)
  else Option.none

/-- Add-path loop over the shards: every shard lacking the column gets one
ALTER TABLE ... ADD COLUMN with the source's column name, declared type
and the computed DEFAULT clause; shards that already have the column get
nothing. -/
def addColumnStmts (db : Db) (tables : List String)
    (field_name column_name data_type : String) (dflt : Option String) : List Stmt :=
  (tables.map (fun table =>
    if column_missing db field_name table
      then [Stmt.addColumn table column_name data_type dflt] else [])).flatten

/-- The `created` flag after the add-path loop: set exactly when some
shard lacked the column and so received an ADD COLUMN. -/
def anyCreated (db : Db) (tables : List String) (field_name : String) : Bool :=
  tables.any (fun table => column_missing db field_name table)

/-- Drop-path column-name resolution against the first shard: the source
no longer has the column, so the live name is probed on tables[0], plain
first, then with the `_id` suffix. -/
def drop_field_name (db : Db) (t0 field_name : String) : String :=
  if (selectColumns db t0 field_name).length == 0 then
    if (selectColumns db t0 (field_name ++ "_id")).length > 0
      then field_name ++ "_id" else field_name
  else field_name

/-- Per-shard body of the drop path: if a foreign-key constraint
references the column on this shard, DROP FOREIGN KEY its first
constraint name, then (in all cases) DROP COLUMN. -/
def dropPathPerTable (db : Db) (field_name table : String) : List Stmt :=
  (match selectFkConstraints db field_name table with
   | c :: _ => [Stmt.dropForeignKey table c]
   | [] => []) ++ [Stmt.dropColumn table field_name]

/-- Pure-attribute max_length section: re-read the source column's name
and full type and MODIFY every shard with it (runs only when nothing was
created or dropped). -/
def modify_stmts (db : Db) (db_table : String) (tables : List String)
    (field_name : String) : List Stmt :=
  match selectColumns db db_table field_name with
  | c :: _ => tables.map (fun table => Stmt.modifyColumn table c.colName c.colType)
  | [] => []

/-- Per-shard body of the default-value section: a non-None value becomes
SET DEFAULT unless the column type mentions datetime or the value's
`str()` mentions NOT_PROVIDED; value None re-applies the column type via
MODIFY (clearing the default). -/
def set_default_per_table (column_name column_type : String) (dv : PyVal)
    (table : String) : List Stmt :=
  if dv != PyVal.pyNone then
    if !(strContains column_type "datetime")
        && !(strContains (pyToString dv) "NOT_PROVIDED") then
      [Stmt.setDefault table column_name (pyToString dv)]
    else []
  else [Stmt.modifyColumn table column_name column_type]

/-- Pure-attribute default-value section: re-read the source column, map
True/False to the strings "1"/"0", then run `set_default_per_table` on
every shard (runs only when nothing was created or dropped and
default_value is not the empty string). -/
def set_default_stmts (db : Db) (db_table : String) (tables : List String)
    (field_name : String) (default_value : PyVal) : List Stmt :=
  match selectColumns db db_table field_name with
  | c :: _ =>
      let dv := if default_value == PyVal.pyBool true then PyVal.pyStr "1"
                else if default_value == PyVal.pyBool false then PyVal.pyStr "0"
                else default_value
      (tables.map (set_default_per_table c.colName c.colType dv)).flatten
  | [] => []

/-- Foreign-key section: strip every occurrence of `_id` from the resolved
field name to recover the model name, look its table up in the model
registry (lower-cased model name paired with its db_table), and ADD
FOREIGN KEY on every shard that has no constraint on the column yet
(runs only when the field resolved as a foreign key and was not
dropped). -/
def add_fk_stmts (db : Db) (models : List (String × String)) (tables : List String)
    (field_name : String) : List Stmt :=
  let model_name := field_name.replace "_id" ""
  match models.find? (fun m => m.1 == model_name) with
  | Option.some m =>
      (tables.map (fun table =>
        if (selectFkConstraints db field_name table).length == 0
          then [Stmt.addForeignKey table field_name m.2] else [])).flatten
  | Option.none => []

/-- `Command.copy_table_changes`: the add/alter worklist item handler.
Locates the shards (returning nothing when there are none), resolves the
field on the source (plain name, then `_id`), and either runs the add
path — per-shard ADD COLUMN for missing columns, then unconditionally
`compare_indexes`, then the attribute-only sections guarded by the
`created`/`dropped` flags, then the foreign-key section — or, when the
field is gone from the source, the drop path: resolve the live name on
the first shard and per shard drop the foreign key (if any) then the
column.  In the drop path `dropped = True` disables every later
section. -/
def copy_table_changes (db : Db) (models : List (String × String))
    (db_table field_name0 : String) (default_value : PyVal)
    (max_length : Option Nat) : List Stmt :=
  let tables := get_sharded_tables db db_table
  if tables.length == 0 then []
  else
    match resolve_source_field db db_table field_name0 with
    | (r :: _, field_name, foreign_key) =>
        let addStmts := addColumnStmts db tables field_name r.colName r.colType
          (add_default_clause r default_value)
        let created := anyCreated db tables field_name
        let idxStmts := compare_indexes db db_table tables field_name
        let maxLenStmts :=
          if max_length.isSome && !created
            then modify_stmts db db_table tables field_name else []
        let defaultStmts :=
          if default_value != PyVal.pyStr "" && !created
            then set_default_stmts db db_table tables field_name default_value else []
        let fkStmts :=
          if foreign_key then add_fk_stmts db models tables field_name else []
        addStmts ++ idxStmts ++ maxLenStmts ++ defaultStmts ++ fkStmts
    | ([], field_name, _) =>
        match tables with
        | t0 :: _ =>
            (tables.map (dropPathPerTable db (drop_field_name db t0 field_name))).flatten
        | [] => []

/-- `Command.remove_unique_together`: for every shard, query its UNIQUE
constraints named LIKE "%_uniq"; when the result is non-empty, DROP INDEX
the first constraint name returned (rows[0][0]); nothing else is
issued. -/
def remove_unique_together (db : Db) (db_table : String) : List Stmt :=
  let tables := get_sharded_tables db db_table
  (tables.map (fun table =>
    match selectUniqConstraints db table with
    | c :: _ => [Stmt.dropIndex table c]
    | [] => [])).flatten

/-- Field resolution of `copy_unique_together`: a listed field keeps its
plain name when the source table has it; otherwise the `_id` fallback is
tried and used when it exists; otherwise the plain name is kept
unchanged. -/
def resolveField (db : Db) (db_table field_name : String) : String :=
  if (selectColumns db db_table field_name).length == 0 then
    if (selectColumns db db_table (field_name ++ "_id")).length > 0
      then field_name ++ "_id" else field_name
  else field_name

/-- `Command.copy_unique_together`: builds the index name by joining the
field list with underscores and appending `_uniq`, resolves every field
against the source table, joins the resolved names with commas, and
issues one CREATE UNIQUE INDEX per shard — unconditionally, with no
existence check on the shard. -/
def copy_unique_together (db : Db) (db_table : String) (field_list : List String) :
    List Stmt :=
  let index_name := String.intercalate "_" field_list ++ "_uniq"
  let tables := get_sharded_tables db db_table
  let real_field_list := field_list.map (resolveField db db_table)
  let field_names := String.intercalate "," real_field_list
  tables.map (fun table => Stmt.createUniqueIndex index_name table field_names)

/-- One registered django model as the classifier sees it: its lower-cased
class name, its `_meta.db_table`, and whether its manager exposes `shard`
(i.e. it is a sharded model). -/
structure DjModel where
  lname : String
  dbTable : String
  hasShard : Bool
deriving Repr, DecidableEq

/-- A migration-plan operation, by the attributes `handle` dispatches on:
an operation with `model_name`, `old_name` and `new_name` is a field
rename; one with `model_name` and a `field` carries the field's class
name, optional `default` and optional `max_length`; one with `model_name`
and neither is a field removal; one with `unique_together` (whose `name`
is the model name) carries the collection of field sets. -/
inductive MigOp where
  | renameField (model_name field_name old_name new_name : String)
  | addAlterField (model_name field_name className : String)
      (dfltVal : Option PyVal) (maxLen : Option Nat)
  | removeField (model_name field_name : String)
  | alterUniqueTogether (model_name : String) (unique_together : List (List String))
deriving Repr, DecidableEq

/-- The four worklists `handle` accumulates before running the host
migration: add/alter changes (db_table, field name, default, max_length),
unique-together additions (db_table, field list), unique-together
removals (db_table), and renames (db_table, old name, new name). -/
structure Worklists where
  model_changes : List (String × String × PyVal × Option Nat)
  add_uts : List (String × List String)
  remove_uts : List String
  renames : List (String × String × String)
deriving Repr, DecidableEq

/-- Lower-cased names of the models whose manager has a `shard`
attribute. -/
def models_with_shard (all_models : List DjModel) : List String :=
  (all_models.filter (fun m => m.hasShard)).map (fun m => m.lname)

/-- The `for m in all_models: if lower(name) == model_name: ... break`
lookup of a model's db_table. -/
def findDbTable (all_models : List DjModel) (model_name : String) : Option String :=
  (all_models.find? (fun m => m.lname == model_name)).map (fun m => m.dbTable)

/-- One step of the classification loop in `Command.handle`: dispatch on
the operation's attributes, filter to sharded models, and append to the
matching worklist.  A rename is only recorded (never also an add/alter);
ManyToManyField and OneToOneField are skipped; a unique-together
operation with an empty list appends one removal entry, a non-empty one
appends one addition entry whose field list is the LAST field set of the
collection (the loop `for f in op.unique_together: field_list = list(f)`
overwrites earlier sets), guarded by `db_table != ''`. -/
def classify_op (all_models : List DjModel) (wl : Worklists) (op : MigOp) : Worklists :=
  match op with
  | MigOp.renameField model_name _ old_name new_name =>
      if (models_with_shard all_models).contains model_name then
        match findDbTable all_models model_name with
        | Option.some t => { wl with renames := wl.renames ++ [(t, old_name, new_name)] }
        | Option.none => wl
      else wl
  | MigOp.addAlterField model_name field_name className dfltVal maxLen =>
      if (models_with_shard all_models).contains model_name then
        if className == "ManyToManyField" || className == "OneToOneField" then wl
        else
          let default_value := match dfltVal with
            | Option.some v => v
            | Option.none => PyVal.pyStr ""
          match findDbTable all_models model_name with
          | Option.some t =>
              { wl with model_changes :=
                  wl.model_changes ++ [(t, field_name, default_value, maxLen)] }
          | Option.none => wl
      else wl
  | MigOp.removeField model_name field_name =>
      if (models_with_shard all_models).contains model_name then
        match findDbTable all_models model_name with
        | Option.some t =>
            { wl with model_changes :=
                wl.model_changes ++ [(t, field_name, PyVal.pyStr "", Option.none)] }
        | Option.none => wl
      else wl
  | MigOp.alterUniqueTogether model_name unique_together =>
      if (models_with_shard all_models).contains model_name then
        let db_table := match findDbTable all_models model_name with
          | Option.some t => t
          | Option.none => ""
        if unique_together.length == 0 then
          { wl with remove_uts := wl.remove_uts ++ [db_table] }
        else
          let field_list := unique_together.foldl (fun _ f => f) []
          if db_table != "" then
            { wl with add_uts := wl.add_uts ++ [(db_table, field_list)] }
          else wl
      else wl

/-- The whole classification phase of `Command.handle`: fold
`classify_op` over the plan's operations starting from empty
worklists. -/
def classify (all_models : List DjModel) (ops : List MigOp) : Worklists :=
  ops.foldl (classify_op all_models)
    { model_changes := [], add_uts := [], remove_uts := [], renames := [] }

/-- Semantics of one CHANGE (rename-with-type) statement on the catalog:
every column of the named table whose name is the old name is renamed and
given the stated type. -/
def apply_change (db : Db) (table oldName newName ty : String) : Db :=
  { db with columns := db.columns.map (fun p =>
      if p.1 == table && p.2.colName == oldName
        then (p.1, { p.2 with colName := newName, colType := ty }) else p) }

/-! ## Helper lemmas -/

/-- Membership in a flattened map: an element of the image of a list
member is in the flattened image list. -/
theorem mem_flatten_map {α β : Type} (f : α → List β) (l : List α) (x : α) (b : β)
    (hx : x ∈ l) (hb : b ∈ f x) : b ∈ (l.map f).flatten := by
  induction l with
  | nil => cases hx
  | cons a ts ih =>
      rcases List.mem_cons.mp hx with h | h
      · subst h
        exact List.mem_append.mpr (Or.inl hb)
      · exact List.mem_append.mpr (Or.inr (ih h))

/-- Conversely, every element of a flattened map comes from the image of
some list member. -/
theorem of_mem_flatten_map {α β : Type} (f : α → List β) (l : List α) (b : β)
    (hb : b ∈ (l.map f).flatten) : ∃ x ∈ l, b ∈ f x := by
  induction l with
  | nil => cases hb
  | cons a ts ih =>
      rcases List.mem_append.mp hb with h | h
      · exact ⟨a, List.mem_cons_self a ts, h⟩
      · rcases ih h with ⟨x, hxl, hbf⟩
        exact ⟨x, List.mem_cons_of_mem a hxl, hbf⟩

/-- The `for f in xs: acc = f` loop keeps the last element. -/
theorem foldl_keep_last {α : Type} :
    ∀ (l : List α) (h : l ≠ []) (init : α), l.foldl (fun _ x => x) init = l.getLast h
  | [a], _, _ => rfl
  | a :: b :: ts, _, init => by
      rw [List.foldl_cons, List.getLast_cons (by simp)]
      exact foldl_keep_last (b :: ts) (by simp) a

/-! ## Claim theorems -/

/-- C8: `run_sql` catches any execution error and returns the empty row
list, so no statement failure propagates an exception to the caller: the
function is total, yields the fetched rows on success and `[]` on error,
and the surrounding loops therefore continue with the next statement,
shard and worklist item. -/
theorem c8_run_sql_total (m : String) (rows : List (List String)) :
    run_sql (SqlOutcome.error m : SqlOutcome (List String)) = []
    ∧ run_sql (SqlOutcome.ok rows) = rows :=
  ⟨rfl, rfl⟩

/-- C9: a failure while enumerating shard tables (the SHOW TABLES
statement raising, swallowed by `run_sql`) makes `get_sharded_tables`
return the empty list, indistinguishable from the zero-shards case; and
with an empty shard list the add/alter, unique-together and rename
handlers issue no DDL at all for the worklist item. -/
theorem c9_shard_discovery_failure :
    (∀ (m : String) (db_table : String),
      get_sharded_tables_outcome (SqlOutcome.error m) db_table = []
      ∧ get_sharded_tables_outcome (SqlOutcome.error m) db_table
          = get_sharded_tables_outcome (SqlOutcome.ok []) db_table)
    ∧ (∀ (db : Db) (models : List (String × String)) (db_table fn old_f new_f : String)
        (dv : PyVal) (ml : Option Nat) (fl : List String),
        get_sharded_tables db db_table = [] →
        copy_table_changes db models db_table fn dv ml = []
        ∧ remove_unique_together db db_table = []
        ∧ copy_unique_together db db_table fl = []
        ∧ rename_fields db db_table old_f new_f = []) := by
  refine ⟨fun m db_table => ⟨rfl, rfl⟩, ?_⟩
  intro db models db_table fn old_f new_f dv ml fl h
  refine ⟨?_, ?_, ?_, ?_⟩
  · simp [copy_table_changes, h]
  · simp [remove_unique_together, h]
  · simp [copy_unique_together, h]
  · simp only [rename_fields, h]
    cases selectColumns db db_table new_f <;> simp

/-- Db with a base table and no shard tables, for the C9 witness. -/
def c9Db : Db :=
  { columns := [("t", ⟨"f", "int(11)", "YES"⟩)], indexRows := [],
    fkRows := [], uniqueRows := [], allTables := ["t"] }

/-- Witness for C9 at a concrete failing discovery and a concrete
zero-shard catalog. -/
theorem c9_witness :
    get_sharded_tables_outcome (SqlOutcome.error "gone away") "t" = []
    ∧ copy_table_changes c9Db [] "t" "f" (PyVal.pyStr "") Option.none = []
    ∧ remove_unique_together c9Db "t" = []
    ∧ copy_unique_together c9Db "t" ["a"] = []
    ∧ rename_fields c9Db "t" "o" "n" = [] := by
  refine ⟨(c9_shard_discovery_failure.1 "gone away" "t").1, ?_⟩
  have h := c9_shard_discovery_failure.2 c9Db [] "t" "f" "o" "n"
    (PyVal.pyStr "") Option.none ["a"] (by decide)
  exact ⟨h.1, h.2.1, h.2.2.1, h.2.2.2⟩

/-- C10: the unique-together addition issues its CREATE UNIQUE INDEX on
every located shard unconditionally: the emitted statements do not depend
on the shards' existing indexes or constraints (first conjunct: replacing
them arbitrarily changes nothing, so a re-run re-issues the identical
statements, whose duplicate-index failure `run_sql` then swallows), and
the trace is exactly one CREATE UNIQUE INDEX per shard (second conjunct) —
unlike the add-column path, which checks column existence per shard and
emits nothing for a shard that already has the column (third conjunct). -/
theorem c10_unconditional_create (db : Db) (idx : List IndexRow)
    (uq : List UniqueRow) (db_table : String) (field_list : List String) :
    copy_unique_together { db with indexRows := idx, uniqueRows := uq } db_table field_list
      = copy_unique_together db db_table field_list
    ∧ copy_unique_together db db_table field_list
        = (get_sharded_tables db db_table).map (fun table =>
            Stmt.createUniqueIndex (String.intercalate "_" field_list ++ "_uniq") table
              (String.intercalate "," (field_list.map (resolveField db db_table))))
    ∧ (∀ (tables : List String) (fn cn dt : String) (dflt : Option String),
        (∀ table ∈ tables, column_missing db fn table = false) →
        addColumnStmts db tables fn cn dt dflt = []) := by
  refine ⟨rfl, rfl, ?_⟩
  intro tables fn cn dt dflt hall
  induction tables with
  | nil => rfl
  | cons a ts ih =>
      have ha := hall a (List.mem_cons_self a ts)
      have hts := ih (fun t ht => hall t (List.mem_cons_of_mem a ht))
      simp only [addColumnStmts, List.map_cons, List.flatten_cons, ha] at hts ⊢
      simpa [ha] using hts

/-- Db for the C10 witness: two shards, one already carrying the unique
index row and the column. -/
def c10Db : Db :=
  { columns := [("t", ⟨"a", "int(11)", "NO"⟩), ("t_1", ⟨"a", "int(11)", "NO"⟩)],
    indexRows := [], fkRows := [],
    uniqueRows := [⟨"t_1", "a_uniq"⟩], allTables := ["t", "t_1", "t_2"] }

/-- Witness for C10: with the existing `a_uniq` constraint on shard `t_1`
erased or kept, the same CREATE UNIQUE INDEX statements are issued on both
shards, while the add-column path emits nothing for the shard that already
has the column. -/
theorem c10_witness :
    copy_unique_together { c10Db with indexRows := [], uniqueRows := [] } "t" ["a"]
      = copy_unique_together c10Db "t" ["a"]
    ∧ copy_unique_together c10Db "t" ["a"]
        = [Stmt.createUniqueIndex "a_uniq" "t_1" "a",
           Stmt.createUniqueIndex "a_uniq" "t_2" "a"]
    ∧ addColumnStmts c10Db ["t_1"] "a" "a" "int(11)" Option.none = [] := by
  have h := c10_unconditional_create c10Db [] [] "t" ["a"]
  exact ⟨h.1, by decide, h.2.2 ["t_1"] "a" "a" "int(11)" Option.none (by decide)⟩

/-- C6: the unique-together addition resolves every listed field against
the source table (plain name when present, else the `_id` fallback when
that exists, else the plain name unchanged), and issues, per shard, one
CREATE UNIQUE INDEX whose name is the underscore-join of the field names
suffixed `_uniq` and whose column list is the comma-join of the resolved
names. -/
theorem c6_copy_unique_together (db : Db) (db_table : String)
    (field_list : List String) :
    copy_unique_together db db_table field_list
      = (get_sharded_tables db db_table).map (fun table =>
          Stmt.createUniqueIndex (String.intercalate "_" field_list ++ "_uniq") table
            (String.intercalate "," (field_list.map (resolveField db db_table))))
    ∧ ∀ fn : String,
        (selectColumns db db_table fn ≠ [] → resolveField db db_table fn = fn)
        ∧ (selectColumns db db_table fn = [] →
            selectColumns db db_table (fn ++ "_id") ≠ [] →
            resolveField db db_table fn = fn ++ "_id")
        ∧ (selectColumns db db_table fn = [] →
            selectColumns db db_table (fn ++ "_id") = [] →
            resolveField db db_table fn = fn) := by
  refine ⟨rfl, fun fn => ⟨?_, ?_, ?_⟩⟩
  · intro h
    simp only [resolveField]
    rw [if_neg]
    simp [List.length_eq_zero, h]
  · intro h h2
    simp only [resolveField, h]
    rw [if_pos (by simp), if_pos]
    simpa [Nat.pos_iff_ne_zero, List.length_eq_zero] using h2
  · intro h h2
    simp [resolveField, h, h2]

/-- Db for the C6 witness: field `a` is a plain column, field `b` resolves
through the `_id` fallback. -/
def c6Db : Db :=
  { columns := [("t", ⟨"a", "int(11)", "NO"⟩), ("t", ⟨"b_id", "int(11)", "NO"⟩)],
    indexRows := [], fkRows := [], uniqueRows := [],
    allTables := ["t", "t_1", "t_2"] }

/-- Witness for C6 at a concrete catalog: `a_b_uniq` over `a,b_id` on both
shards, with `b` resolved through the `_id` fallback. -/
theorem c6_witness :
    copy_unique_together c6Db "t" ["a", "b"]
      = (get_sharded_tables c6Db "t").map (fun table =>
          Stmt.createUniqueIndex (String.intercalate "_" ["a", "b"] ++ "_uniq") table
            (String.intercalate "," (["a", "b"].map (resolveField c6Db "t"))))
    ∧ resolveField c6Db "t" "b" = "b" ++ "_id"
    ∧ resolveField c6Db "t" "a" = "a" := by
  have h := c6_copy_unique_together c6Db "t" ["a", "b"]
  exact ⟨h.1, ((h.2 "b").2.1 (by decide) (by decide)), ((h.2 "a").1 (by decide))⟩

/-- C4: a field rename on a sharded model looks the column up on the
source by its new name; when found it issues exactly one CHANGE per shard
carrying the source's declared type (so applying that statement leaves the
renamed column with the source column's type, last conjunct); when the
new name is absent from the source, no statement is issued at all. -/
theorem c4_rename_fields (db : Db) (db_table old_field new_field : String) :
    (∀ (r : Column) (rs : List Column),
      selectColumns db db_table new_field = r :: rs →
      rename_fields db db_table old_field new_field
        = (get_sharded_tables db db_table).map
            (fun table => Stmt.changeColumn table old_field new_field r.colType)
      ∧ ∀ (table : String) (col : Column),
          (table, col) ∈ db.columns → col.colName = old_field →
          (table, { col with colName := new_field, colType := r.colType })
            ∈ (apply_change db table old_field new_field r.colType).columns)
    ∧ (selectColumns db db_table new_field = [] →
        rename_fields db db_table old_field new_field = []) := by
  constructor
  · intro r rs hfound
    constructor
    · simp [rename_fields, hfound]
    · intro table col hmem hname
      simp only [apply_change]
      have : (if (table, col).1 == table && (table, col).2.colName == old_field
          then ((table, col).1,
            { (table, col).2 with colName := new_field, colType := r.colType })
          else (table, col))
          = (table, { col with colName := new_field, colType := r.colType }) := by
        simp [hname]
      exact this ▸ List.mem_map_of_mem _ hmem
  · intro habsent
    simp [rename_fields, habsent]

/-- Db for the C4 witness: the source already carries the renamed column
`n`; the shard still has `o`. -/
def c4Db : Db :=
  { columns := [("t", ⟨"n", "varchar(50)", "YES"⟩), ("t_1", ⟨"o", "text", "YES"⟩)],
    indexRows := [], fkRows := [], uniqueRows := [], allTables := ["t", "t_1"] }

/-- Witness for C4 at a concrete catalog: one CHANGE statement on the
shard with the source's type, the rename applied to the shard leaves the
column typed as on the source, and an unknown new name issues nothing. -/
theorem c4_witness :
    rename_fields c4Db "t" "o" "n"
      = [Stmt.changeColumn "t_1" "o" "n" "varchar(50)"]
    ∧ ("t_1", ({ colName := "n", colType := "varchar(50)", isNullable := "YES" } : Column))
        ∈ (apply_change c4Db "t_1" "o" "n" "varchar(50)").columns
    ∧ rename_fields c4Db "t" "o" "zz" = [] := by
  have h := (c4_rename_fields c4Db "t" "o" "n").1
    ⟨"n", "varchar(50)", "YES"⟩ [] (by decide)
  refine ⟨by rw [h.1]; decide, ?_, (c4_rename_fields c4Db "t" "o" "zz").2 (by decide)⟩
  exact h.2 "t_1" ⟨"o", "text", "YES"⟩ (by decide) rfl

/-- C7: classifying a unique-together operation on a sharded model whose
table resolves to a non-empty name appends exactly one removal entry when
the field-set list is empty, and exactly one addition entry carrying the
LAST field set of the collection when it is non-empty (earlier sets are
overwritten by the loop), while the add/alter and rename worklists are
left untouched by the operation in every case. -/
theorem c7_classify_unique_together (all_models : List DjModel) (wl : Worklists)
    (model_name : String) (uts : List (List String)) (t : String)
    (hsh : (models_with_shard all_models).contains model_name = true)
    (ht : findDbTable all_models model_name = Option.some t)
    (hne : t ≠ "") :
    (uts = [] →
      classify_op all_models wl (MigOp.alterUniqueTogether model_name uts)
        = { wl with remove_uts := wl.remove_uts ++ [t] })
    ∧ (∀ h : uts ≠ [],
        classify_op all_models wl (MigOp.alterUniqueTogether model_name uts)
          = { wl with add_uts := wl.add_uts ++ [(t, uts.getLast h)] })
    ∧ (classify_op all_models wl (MigOp.alterUniqueTogether model_name uts)).model_changes
        = wl.model_changes
    ∧ (classify_op all_models wl (MigOp.alterUniqueTogether model_name uts)).renames
        = wl.renames := by
  have hmem : model_name ∈ models_with_shard all_models := by
    simpa using hsh
  have hbody :
      classify_op all_models wl (MigOp.alterUniqueTogether model_name uts)
        = if uts = [] then { wl with remove_uts := wl.remove_uts ++ [t] }
          else if t = "" then wl
          else
            { wl with add_uts := wl.add_uts ++ [(t, uts.foldl (fun _ f => f) [])] } := by
    simp [classify_op, hmem, ht]
  refine ⟨?_, ?_, ?_, ?_⟩
  · intro h
    subst h
    simpa using hbody
  · intro h
    rw [hbody, if_neg h, if_neg hne, foldl_keep_last uts h]
  · rw [hbody]
    split <;> rfl
  · rw [hbody]
    split <;> rfl

/-- Model registry for the C7 witness: one sharded model. -/
def c7Models : List DjModel :=
  [{ lname := "lead", dbTable := "app_lead", hasShard := true }]

/-- Witness for C7 at a concrete registry: an empty list yields one
removal entry, a two-set list yields one addition entry carrying only the
last set, and the other worklists stay empty. -/
theorem c7_witness :
    classify_op c7Models
        { model_changes := [], add_uts := [], remove_uts := [], renames := [] }
        (MigOp.alterUniqueTogether "lead" [])
      = { model_changes := [], add_uts := [], remove_uts := ["app_lead"], renames := [] }
    ∧ classify_op c7Models
        { model_changes := [], add_uts := [], remove_uts := [], renames := [] }
        (MigOp.alterUniqueTogether "lead" [["a", "b"], ["c", "d"]])
      = { model_changes := [], add_uts := [("app_lead", ["c", "d"])],
          remove_uts := [], renames := [] } := by
  have h1 := c7_classify_unique_together c7Models
    { model_changes := [], add_uts := [], remove_uts := [], renames := [] }
    "lead" [] "app_lead" (by decide) (by decide) (by decide)
  have h2 := c7_classify_unique_together c7Models
    { model_changes := [], add_uts := [], remove_uts := [], renames := [] }
    "lead" [["a", "b"], ["c", "d"]] "app_lead" (by decide) (by decide) (by decide)
  exact ⟨h1.1 rfl, (h2.2.1 (by simp)).trans (by decide)⟩

/-- C5 counterexample catalog: shard `t_1` carries TWO `_uniq`-named
unique constraints. -/
def c5Db : Db :=
  { columns := [], indexRows := [], fkRows := [],
    uniqueRows := [⟨"t_1", "a_uniq"⟩, ⟨"t_1", "b_uniq"⟩],
    allTables := ["t", "t_1"] }

/-- C5 counterexample: on a shard with two `_uniq`-named unique
constraints the removal drops only the FIRST one returned; `b_uniq`
survives, so the shard does not lose every `_uniq`-named constraint as the
claim states. -/
theorem c5_counterexample :
    selectUniqConstraints c5Db "t_1" = ["a_uniq", "b_uniq"]
    ∧ remove_unique_together c5Db "t" = [Stmt.dropIndex "t_1" "a_uniq"]
    ∧ Stmt.dropIndex "t_1" "b_uniq" ∉ remove_unique_together c5Db "t" := by
  refine ⟨by decide, by decide, by decide⟩

/-- C5 as amended: for every shard that has at least one `_uniq`-named
unique constraint the removal drops exactly the first such constraint
returned by the catalog (at most one per shard per run), every emitted
statement is such a drop — so no DDL touches any other index — and shards
without a `_uniq`-named unique constraint receive no statement. -/
theorem c5_remove_unique_together (db : Db) (db_table : String) :
    (∀ s ∈ remove_unique_together db db_table,
      ∃ (table c : String) (cs : List String),
        s = Stmt.dropIndex table c
        ∧ table ∈ get_sharded_tables db db_table
        ∧ selectUniqConstraints db table = c :: cs)
    ∧ (∀ table ∈ get_sharded_tables db db_table,
        ∀ (c : String) (cs : List String),
        selectUniqConstraints db table = c :: cs →
        Stmt.dropIndex table c ∈ remove_unique_together db db_table) := by
  constructor
  · intro s hs
    rcases of_mem_flatten_map _ _ _ hs with ⟨table, htab, hsf⟩
    revert hsf
    cases hu : selectUniqConstraints db table with
    | nil => intro hsf; cases hsf
    | cons c cs =>
        intro hsf
        rcases List.mem_singleton.mp hsf with rfl
        exact ⟨table, c, cs, rfl, htab, hu⟩
  · intro table htab c cs hu
    exact mem_flatten_map _ _ table _ htab (by rw [hu]; exact List.mem_singleton.mpr rfl)

/-- Db for the C5 witness: one shard with a single `_uniq` constraint,
one shard with none. -/
def c5WDb : Db :=
  { columns := [], indexRows := [], fkRows := [],
    uniqueRows := [⟨"t_1", "a_b_uniq"⟩, ⟨"t_2", "other_idx"⟩],
    allTables := ["t", "t_1", "t_2"] }

/-- Witness for C5 as amended, at a concrete catalog: the single emitted
statement drops `a_b_uniq` on `t_1`, and it is characterised by the
theorem; the constraint-less shard `t_2` gets nothing. -/
theorem c5_witness :
    Stmt.dropIndex "t_1" "a_b_uniq" ∈ remove_unique_together c5WDb "t"
    ∧ ∃ (table c : String) (cs : List String),
        Stmt.dropIndex "t_1" "a_b_uniq" = Stmt.dropIndex table c
        ∧ table ∈ get_sharded_tables c5WDb "t"
        ∧ selectUniqConstraints c5WDb table = c :: cs := by
  have h := c5_remove_unique_together c5WDb "t"
  have hmem := h.2 "t_1" (by decide) "a_b_uniq" [] (by decide)
  exact ⟨hmem, h.1 _ hmem⟩

/-- Unfolding of `copy_table_changes` on the add/alter path: when shards
exist and the field resolves on the source, the trace is the add-column
loop, then the unconditional index reconciliation, then the two
attribute-only sections (guarded by `created` being false), then the
foreign-key section. -/
theorem copy_table_changes_add_path (db : Db) (models : List (String × String))
    (db_table field_name0 : String) (default_value : PyVal) (max_length : Option Nat)
    (r : Column) (rs : List Column) (fn : String) (fkb : Bool)
    (hres : resolve_source_field db db_table field_name0 = (r :: rs, fn, fkb))
    (hne : get_sharded_tables db db_table ≠ []) :
    copy_table_changes db models db_table field_name0 default_value max_length
      = addColumnStmts db (get_sharded_tables db db_table) fn r.colName r.colType
          (add_default_clause r default_value)
        ++ compare_indexes db db_table (get_sharded_tables db db_table) fn
        ++ (if max_length.isSome && !(anyCreated db (get_sharded_tables db db_table) fn)
            then modify_stmts db db_table (get_sharded_tables db db_table) fn else [])
        ++ (if default_value != PyVal.pyStr ""
              && !(anyCreated db (get_sharded_tables db db_table) fn)
            then set_default_stmts db db_table (get_sharded_tables db db_table) fn
              default_value
            else [])
        ++ (if fkb then add_fk_stmts db models (get_sharded_tables db db_table) fn
            else []) := by
  have hlen : ((get_sharded_tables db db_table).length == 0) = false := by
    simpa [List.length_eq_zero] using hne
  simp only [copy_table_changes, hlen, hres, Bool.false_eq_true, if_false,
    List.append_assoc]

/-- Unfolding of `copy_table_changes` on the drop path: when shards exist
but the field is gone from the source under both the plain name and the
`_id` fallback, the trace is, per shard, the drop of the referencing
foreign key (when one exists) followed by the column drop, with the
column name resolved against the first shard. -/
theorem copy_table_changes_drop_path (db : Db) (models : List (String × String))
    (db_table field_name : String) (default_value : PyVal) (max_length : Option Nat)
    (t0 : String) (rest : List String)
    (habsent : selectColumns db db_table field_name = [])
    (habsent2 : selectColumns db db_table (field_name ++ "_id") = [])
    (htables : get_sharded_tables db db_table = t0 :: rest) :
    copy_table_changes db models db_table field_name default_value max_length
      = ((t0 :: rest).map
          (dropPathPerTable db (drop_field_name db t0 field_name))).flatten := by
  have hres : resolve_source_field db db_table field_name = ([], field_name, false) := by
    simp [resolve_source_field, habsent, habsent2]
  simp only [copy_table_changes, htables, hres]
  rfl

/-- Statements of the drop-path body for one shard all name that shard. -/
theorem dropPathPerTable_tables (db : Db) (fn t table c : String)
    (h : Stmt.dropColumn table c ∈ dropPathPerTable db fn t) : table = t ∧ c = fn := by
  simp only [dropPathPerTable] at h
  rcases List.mem_append.mp h with h | h
  · cases hfk : selectFkConstraints db fn t with
    | nil => rw [hfk] at h; cases h
    | cons a l => rw [hfk] at h; exact Stmt.noConfusion (List.mem_singleton.mp h)
  · have heq := List.mem_singleton.mp h
    injection heq with h1 h2
    exact ⟨h1, h2⟩

/-- Drop ordering inside the flattened per-shard traces: for a shard with
a foreign-key constraint, the trace decomposes around the adjacent pair
[DROP FOREIGN KEY, DROP COLUMN] for that shard, and no DROP COLUMN for
that shard occurs earlier. -/
theorem drop_decomp (db : Db) (fn : String) :
    ∀ (tables : List String) (table c : String) (cs : List String),
      tables.Nodup → table ∈ tables →
      selectFkConstraints db fn table = c :: cs →
      ∃ pre post,
        (tables.map (dropPathPerTable db fn)).flatten
          = pre ++ [Stmt.dropForeignKey table c, Stmt.dropColumn table fn] ++ post
        ∧ Stmt.dropColumn table fn ∉ pre := by
  intro tables
  induction tables with
  | nil => intro table c cs _ hmem; cases hmem
  | cons a ts ih =>
      intro table c cs hnodup hmem hfk
      rcases List.mem_cons.mp hmem with h | h
      · subst h
        refine ⟨[], (ts.map (dropPathPerTable db fn)).flatten, ?_, by simp⟩
        simp [dropPathPerTable, hfk]
      · rcases ih table c cs (List.Nodup.of_cons hnodup) h hfk with ⟨pre, post, heq, hpre⟩
        refine ⟨dropPathPerTable db fn a ++ pre, post, by simp [heq], ?_⟩
        intro hmem2
        rcases List.mem_append.mp hmem2 with h2 | h2
        · rcases dropPathPerTable_tables db fn a table fn h2 with ⟨rfl, -⟩
          exact (List.nodup_cons.mp hnodup).1 h
        · exact hpre h2

/-- C2: for a dropped field (absent from the source under both the plain
name and the `_id` fallback), on every shard carrying a foreign-key
constraint on the resolved column the DROP FOREIGN KEY statement is
issued immediately before that shard's DROP COLUMN, and no DROP COLUMN
for that shard precedes it. -/
theorem c2_fk_drop_before_column_drop (db : Db) (models : List (String × String))
    (db_table field_name : String) (default_value : PyVal) (max_length : Option Nat)
    (t0 : String) (rest : List String) (table c : String) (cs : List String)
    (habsent : selectColumns db db_table field_name = [])
    (habsent2 : selectColumns db db_table (field_name ++ "_id") = [])
    (htables : get_sharded_tables db db_table = t0 :: rest)
    (hnodup : (t0 :: rest).Nodup)
    (hmem : table ∈ t0 :: rest)
    (hfk : selectFkConstraints db (drop_field_name db t0 field_name) table = c :: cs) :
    ∃ pre post,
      copy_table_changes db models db_table field_name default_value max_length
        = pre ++ [Stmt.dropForeignKey table c,
            Stmt.dropColumn table (drop_field_name db t0 field_name)] ++ post
      ∧ Stmt.dropColumn table (drop_field_name db t0 field_name) ∉ pre := by
  rw [copy_table_changes_drop_path db models db_table field_name default_value
    max_length t0 rest habsent habsent2 htables]
  exact drop_decomp db (drop_field_name db t0 field_name) (t0 :: rest) table c cs
    hnodup hmem hfk

/-- Catalog for the C2 witness: field `u` dropped from source `t`; both
shards still have `u_id` with a referencing foreign key. -/
def c2Db : Db :=
  { columns := [("t_1", ⟨"u_id", "int(11)", "NO"⟩), ("t_2", ⟨"u_id", "int(11)", "NO"⟩)],
    indexRows := [],
    fkRows := [⟨"t_1", "u_id", "fk1"⟩, ⟨"t_2", "u_id", "fk2"⟩],
    uniqueRows := [], allTables := ["t", "t_1", "t_2"] }

/-- Witness for C2 at a concrete catalog, on the second shard. -/
theorem c2_witness :
    ∃ pre post,
      copy_table_changes c2Db [] "t" "u" (PyVal.pyStr "") Option.none
        = pre ++ [Stmt.dropForeignKey "t_2" "fk2",
            Stmt.dropColumn "t_2" (drop_field_name c2Db "t_1" "u")] ++ post
      ∧ Stmt.dropColumn "t_2" (drop_field_name c2Db "t_1" "u") ∉ pre :=
  c2_fk_drop_before_column_drop c2Db [] "t" "u" (PyVal.pyStr "") Option.none
    "t_1" ["t_2"] "t_2" "fk2" [] (by decide) (by decide) (by decide) (by decide)
    (by decide) (by decide)

/-- C3: for an add/alter item whose field resolves on the source, every
shard lacking the column receives an ADD COLUMN with the source's column
name and exact declared type and with a DEFAULT clause chosen by case:
a nullable source column gets none; a True/False default the numeric
literal "1"/"0" (never the tokens True/False); any other default that is
not a NOT_PROVIDED sentinel on a non-datetime type its `str()` literal;
datetime types and unresolved defaults get no DEFAULT clause. -/
theorem c3_add_column_default (db : Db) (models : List (String × String))
    (db_table field_name0 : String) (default_value : PyVal) (max_length : Option Nat)
    (r : Column) (rs : List Column) (fn : String) (fkb : Bool) (table : String)
    (hres : resolve_source_field db db_table field_name0 = (r :: rs, fn, fkb))
    (hmem : table ∈ get_sharded_tables db db_table)
    (hmissing : column_missing db fn table = true) :
    Stmt.addColumn table r.colName r.colType (add_default_clause r default_value)
      ∈ copy_table_changes db models db_table field_name0 default_value max_length
    ∧ (r.isNullable = "YES" → add_default_clause r default_value = Option.none)
    ∧ (∀ b : Bool, r.isNullable ≠ "YES" → default_value = PyVal.pyBool b →
        add_default_clause r default_value = Option.some (if b then "1" else "0"))
    ∧ (r.isNullable ≠ "YES" → (∀ b : Bool, default_value ≠ PyVal.pyBool b) →
        strContains r.colType "datetime" = false →
        strContains (pyToString default_value) "NOT_PROVIDED" = false →
        add_default_clause r default_value = Option.some (pyToString default_value))
    ∧ (r.isNullable ≠ "YES" → (∀ b : Bool, default_value ≠ PyVal.pyBool b) →
        (strContains r.colType "datetime" = true ∨
          strContains (pyToString default_value) "NOT_PROVIDED" = true) →
        add_default_clause r default_value = Option.none) := by
  refine ⟨?_, ?_, ?_, ?_, ?_⟩
  · rw [copy_table_changes_add_path db models db_table field_name0 default_value
      max_length r rs fn fkb hres (List.ne_nil_of_mem hmem)]
    refine List.mem_append.mpr (Or.inl (List.mem_append.mpr (Or.inl
      (List.mem_append.mpr (Or.inl (List.mem_append.mpr (Or.inl ?_)))))))
    exact mem_flatten_map _ _ table _ hmem (by simp [hmissing])
  · intro h
    simp [add_default_clause, h]
  · intro b h hb
    subst hb
    cases b <;> simp [add_default_clause, h]
  · intro h hnb hdt hnp
    simp [add_default_clause, h, hnb true, hnb false, hdt, hnp]
  · intro h hnb hcase
    rcases hcase with hc | hc <;>
      simp [add_default_clause, h, hnb true, hnb false, hc]

/-- Catalog for the C3 witness: non-nullable `status varchar(20)` exists
on the source, missing on the shard. -/
def c3Db : Db :=
  { columns := [("t", ⟨"status", "varchar(20)", "NO"⟩)],
    indexRows := [], fkRows := [], uniqueRows := [], allTables := ["t", "t_1"] }

/-- Witness for C3 at a concrete catalog: the shard gets
ADD COLUMN status varchar(20) DEFAULT "new". -/
theorem c3_witness :
    Stmt.addColumn "t_1" "status" "varchar(20)"
        (add_default_clause ⟨"status", "varchar(20)", "NO"⟩ (PyVal.pyStr "new"))
      ∈ copy_table_changes c3Db [] "t" "status" (PyVal.pyStr "new") Option.none
    ∧ add_default_clause ⟨"status", "varchar(20)", "NO"⟩ (PyVal.pyStr "new")
        = Option.some "new" := by
  have h := c3_add_column_default c3Db [] "t" "status" (PyVal.pyStr "new") Option.none
    ⟨"status", "varchar(20)", "NO"⟩ [] "status" false "t_1"
    (by decide) (by decide) (by decide)
  exact ⟨h.1, h.2.2.2.1 (by decide) (fun b => by cases b <;> decide)
    (by decide) (by decide)⟩

/-- Catalog refuting C1: nullable `f` present on source and on the single
shard (so nothing is created), a non-unique index on `f` on both, with
matching uniqueness flags. -/
def c1Db : Db :=
  { columns := [("s", ⟨"f", "int(11)", "YES"⟩), ("s_1", ⟨"f", "int(11)", "YES"⟩)],
    indexRows := [⟨"s", "1", "f_idx", "f"⟩, ⟨"s_1", "1", "f_idx", "f"⟩],
    fkRows := [], uniqueRows := [], allTables := ["s", "s_1"] }

/-- C1 counterexample: with no column created on any shard (a pure
attribute-only pass, `created` stays false) and the shard's index
uniqueness equal to the source's, the run still emits the index
reconciliation DDL — and it drops and recreates the shard's index even
though its uniqueness already matches, contradicting both `only when the
change was a genuine add` and `dropped and recreated only if the shard's
index has the wrong uniqueness`. -/
theorem c1_counterexample :
    anyCreated c1Db (get_sharded_tables c1Db "s") "f" = false
    ∧ (showIndexNotUniq c1Db "s" "f").map IndexRow.nonUnique = ["1"]
    ∧ (showIndexNotUniq c1Db "s_1" "f").map IndexRow.nonUnique = ["1"]
    ∧ copy_table_changes c1Db [] "s" "f" (PyVal.pyStr "") Option.none
        = [Stmt.dropIndex "s_1" "f", Stmt.addIndex "s_1" "f"] := by
  refine ⟨by decide, by decide, by decide, by decide⟩

/-- C1 as amended: whenever the field resolves on the source — even when
no column was created anywhere (a pure attribute-only change) — the
single-column index reconciliation runs; and when the source has a
non-`_uniq` index on the column, a shard that has any such index gets it
dropped and an index of the source's flagged uniqueness recreated, even
when the shard's existing uniqueness already matches the source's. -/
theorem c1_index_reconciliation (db : Db) (models : List (String × String))
    (db_table field_name0 : String) (default_value : PyVal) (max_length : Option Nat)
    (r : Column) (rs : List Column) (fn : String) (fkb : Bool)
    (ir : IndexRow) (irs : List IndexRow) (table : String)
    (sr : IndexRow) (srs : List IndexRow)
    (hres : resolve_source_field db db_table field_name0 = (r :: rs, fn, fkb))
    (hmem : table ∈ get_sharded_tables db db_table)
    (hnocreate : anyCreated db (get_sharded_tables db db_table) fn = false)
    (hsrc : showIndexNotUniq db db_table fn = ir :: irs)
    (hshard : showIndexNotUniq db table fn = sr :: srs)
    (hsame : sr.nonUnique = ir.nonUnique) :
    Stmt.dropIndex table fn
      ∈ copy_table_changes db models db_table field_name0 default_value max_length
    ∧ (ir.nonUnique = "1" → Stmt.addIndex table fn
        ∈ copy_table_changes db models db_table field_name0 default_value max_length)
    ∧ (ir.nonUnique ≠ "1" → Stmt.addUniqueIndex table fn
        ∈ copy_table_changes db models db_table field_name0 default_value
            max_length) := by
  have hc : compare_indexes db db_table (get_sharded_tables db db_table) fn
      = ((get_sharded_tables db db_table).map
          (compare_indexes_present db fn ir.nonUnique)).flatten := by
    simp [compare_indexes, hsrc]
  have hmain : ∀ s : Stmt, s ∈ compare_indexes_present db fn ir.nonUnique table →
      s ∈ copy_table_changes db models db_table field_name0 default_value max_length := by
    intro s hs
    rw [copy_table_changes_add_path db models db_table field_name0 default_value
      max_length r rs fn fkb hres (List.ne_nil_of_mem hmem)]
    refine List.mem_append.mpr (Or.inl (List.mem_append.mpr (Or.inl
      (List.mem_append.mpr (Or.inl (List.mem_append.mpr (Or.inr ?_)))))))
    rw [hc]
    exact mem_flatten_map _ _ table _ hmem hs
  refine ⟨hmain _ ?_, fun h1 => hmain _ ?_, fun h1 => hmain _ ?_⟩
  · simp [compare_indexes_present, hshard]
  · simp [compare_indexes_present, h1]
  · simp [compare_indexes_present, h1]

/-- Witness for C1 as amended, at the same concrete catalog as the
counterexample: the drop and the non-unique re-add are both emitted. -/
theorem c1_witness :
    Stmt.dropIndex "s_1" "f"
      ∈ copy_table_changes c1Db [] "s" "f" (PyVal.pyStr "") Option.none
    ∧ Stmt.addIndex "s_1" "f"
      ∈ copy_table_changes c1Db [] "s" "f" (PyVal.pyStr "") Option.none := by
  have h := c1_index_reconciliation c1Db [] "s" "f" (PyVal.pyStr "") Option.none
    ⟨"f", "int(11)", "YES"⟩ [] "f" false ⟨"s", "1", "f_idx", "f"⟩ [] "s_1"
    ⟨"s_1", "1", "f_idx", "f"⟩ []
    (by decide) (by decide) (by decide) (by decide) (by decide) (by decide)
  exact ⟨h.1, h.2.1 rfl⟩

end TableSharding
